import Mathlib

/-!
Verification of the DRAIN payment-gateway core of the community-tpn provider.

The HTTP handler (`src/providers/community-tpn/src/index.ts`) and the pricing
logic (`src/providers/community-tpn/src/config.ts`) are embedded from their
source. The voucher validator and the voucher ledger live in `drain.ts` /
`storage.ts`, which are not part of the provided sources; those definitions
are modelled from the specification and carry a doc comment saying so.
-/

/-! ## Data model (from `src/providers/community-tpn/src/types.ts`) -/

/-- A voucher as carried on the wire inside the `X-DRAIN-Voucher` header:
`channelId` (hex id), `amount` (decimal string), `nonce` (decimal string),
`signature` (hex), all still unparsed strings. -/
structure VoucherWire where
  channelId : String
  amount : String
  nonce : String
  signature : String
deriving DecidableEq, Repr

/-- A structurally checked voucher: `amount` and `nonce` parsed as
non-negative integers. -/
structure Voucher where
  channelId : String
  amount : ℕ
  nonce : ℕ
  signature : String
deriving DecidableEq, Repr

/-- Authoritative channel facts read from the external ledger. -/
structure Channel where
  consumer : String
  deposit : ℕ
  expiry : ℕ
deriving DecidableEq, Repr

/-- `StoredVoucher` from `types.ts`: all voucher fields plus the resolved
consumer, receipt time and claim bookkeeping. -/
structure StoredVoucher where
  channelId : String
  amount : ℕ
  nonce : ℕ
  signature : String
  consumer : String
  receivedAt : ℕ
  claimed : Bool
  claimedAt : Option ℕ := none
  claimTxHash : Option String := none
deriving DecidableEq, Repr

/-- `ChannelState` from `types.ts`: the channel snapshot returned by
validation, carrying the running charge total. -/
structure ChannelState where
  channelId : String
  consumer : String
  deposit : ℕ
  totalCharged : ℕ
  expiry : ℕ
deriving DecidableEq, Repr

/-- The per-channel slot store of the voucher ledger: at most one
`StoredVoucher` per channel id. -/
abbrev Store := String → Option StoredVoucher

/-- Running charge total of a slot: the stored `amount` when present, else 0
(spec section 3). -/
def storedAmount (slot : Option StoredVoucher) : ℕ :=
  match slot with
  | none => 0
  | some s => s.amount

/-! ## Voucher ledger operations -/

/-- Modelled from the spec: `recordAccepted` of the VoucherLedger
(`storage.ts` is not in `src/`). Atomically replaces the stored voucher iff
the incoming `amount` is strictly greater than the currently stored amount,
stores it fresh when none exists, and otherwise is a no-op. -/
def recordAccepted (incoming : StoredVoucher) (slot : Option StoredVoucher) :
    Option StoredVoucher :=
  match slot with
  | none => some incoming
  | some s => if s.amount < incoming.amount then some incoming else some s

/-- Modelled from the spec: `markClaimed` of the VoucherLedger (`storage.ts`
is not in `src/`). Sets `claimed := true` with the claim time and tx hash iff
the current stored voucher still matches the claimed one (same amount and
nonce); otherwise it fails silently and leaves the slot unchanged. -/
def markClaimed (amount nonce : ℕ) (txHash : String) (now : ℕ)
    (slot : Option StoredVoucher) : Option StoredVoucher :=
  match slot with
  | none => none
  | some s =>
    if s.amount = amount ∧ s.nonce = nonce then
      some { s with claimed := true, claimedAt := some now,
                    claimTxHash := some txHash }
    else some s

/-- The mutating ledger operations on a single channel slot. -/
inductive LedgerOp where
  | record : StoredVoucher → LedgerOp
  | mark : ℕ → ℕ → String → ℕ → LedgerOp
deriving DecidableEq, Repr

/-- Apply one ledger operation to a channel slot. -/
def applyOp (slot : Option StoredVoucher) : LedgerOp → Option StoredVoucher
  | .record v => recordAccepted v slot
  | .mark a n tx t => markClaimed a n tx t slot

lemma storedAmount_recordAccepted_le (v : StoredVoucher)
    (slot : Option StoredVoucher) :
    storedAmount slot ≤ storedAmount (recordAccepted v slot) := by
  cases slot with
  | none => simp [recordAccepted, storedAmount]
  | some s =>
    simp only [recordAccepted]
    split
    · simp only [storedAmount]; omega
    · exact le_refl _

lemma le_storedAmount_recordAccepted (v : StoredVoucher)
    (slot : Option StoredVoucher) :
    v.amount ≤ storedAmount (recordAccepted v slot) := by
  cases slot with
  | none => simp [recordAccepted, storedAmount]
  | some s =>
    simp only [recordAccepted]
    split
    · simp [storedAmount]
    · simp only [storedAmount]; omega

lemma recordAccepted_ne_none (v : StoredVoucher)
    (slot : Option StoredVoucher) : recordAccepted v slot ≠ none := by
  cases slot with
  | none => simp [recordAccepted]
  | some s =>
    simp only [recordAccepted]
    split <;> simp

lemma storedAmount_markClaimed (a n : ℕ) (tx : String) (t : ℕ)
    (slot : Option StoredVoucher) :
    storedAmount (markClaimed a n tx t slot) = storedAmount slot := by
  cases slot with
  | none => rfl
  | some s =>
    simp only [markClaimed]
    split <;> rfl

lemma storedAmount_applyOp_le (slot : Option StoredVoucher) (op : LedgerOp) :
    storedAmount slot ≤ storedAmount (applyOp slot op) := by
  cases op with
  | record v => exact storedAmount_recordAccepted_le v slot
  | mark a n tx t => rw [applyOp, storedAmount_markClaimed]

lemma storedAmount_foldl_le (ops : List LedgerOp)
    (slot : Option StoredVoucher) :
    storedAmount slot ≤ storedAmount (ops.foldl applyOp slot) := by
  induction ops generalizing slot with
  | nil => exact le_refl _
  | cons op ops ih =>
    exact le_trans (storedAmount_applyOp_le slot op) (ih (applyOp slot op))

/-- C1: the running charge total of a channel is non-decreasing across every
ledger operation: `recordAccepted` replaces the slot exactly when the incoming
amount is strictly greater than the stored amount (storing fresh when the slot
is empty) and otherwise is a no-op, so the stored amount is monotone along any
sequence of operations. -/
theorem stored_amount_monotone (ops : List LedgerOp)
    (slot : Option StoredVoucher) (v s : StoredVoucher) :
    storedAmount slot ≤ storedAmount (ops.foldl applyOp slot)
    ∧ (storedAmount slot < v.amount → recordAccepted v slot = some v)
    ∧ (v.amount ≤ s.amount → recordAccepted v (some s) = some s)
    ∧ recordAccepted v none = some v := by
  refine ⟨storedAmount_foldl_le ops slot, ?_, ?_, rfl⟩
  · intro h
    cases slot with
    | none => rfl
    | some s' =>
      simp only [storedAmount] at h
      simp [recordAccepted, h]
  · intro h
    simp only [recordAccepted]
    split
    · omega
    · rfl

/-- C2: recording two vouchers with amounts `A < B` for the same channel, in
either linearized order (the spec requires per-channel updates to be
linearized), converges to stored amount `max A B`; and once `B` has been
recorded, no further sequence of ledger operations can bring the stored
amount back to `A`. -/
theorem record_converges_to_max (slot : Option StoredVoucher)
    (va vb : StoredVoucher) (hAB : va.amount < vb.amount)
    (hs : storedAmount slot ≤ va.amount) :
    storedAmount (recordAccepted vb (recordAccepted va slot)) =
      max va.amount vb.amount
    ∧ storedAmount (recordAccepted va (recordAccepted vb slot)) =
      max va.amount vb.amount
    ∧ ∀ (slot' : Option StoredVoucher) (ops : List LedgerOp),
        storedAmount (ops.foldl applyOp (recordAccepted vb slot')) ≠
          va.amount := by
  refine ⟨?_, ?_, ?_⟩
  · have h1 : storedAmount (recordAccepted va slot) ≤ va.amount := by
      cases slot with
      | none => simp [recordAccepted, storedAmount]
      | some s =>
        simp only [storedAmount] at hs
        simp only [recordAccepted]
        split
        · simp [storedAmount]
        · simp only [storedAmount]; omega
    cases hslot : recordAccepted va slot with
    | none => exact absurd hslot (recordAccepted_ne_none va slot)
    | some s =>
      rw [hslot] at h1
      simp only [storedAmount] at h1
      simp only [recordAccepted]
      rw [if_pos (lt_of_le_of_lt h1 hAB)]
      simp only [storedAmount, Nat.max_def]
      split <;> omega
  · have h1 : storedAmount (recordAccepted vb slot) = vb.amount := by
      cases slot with
      | none => simp [recordAccepted, storedAmount]
      | some s =>
        simp only [storedAmount] at hs
        simp only [recordAccepted]
        rw [if_pos (by omega)]
        simp [storedAmount]
    cases hslot : recordAccepted vb slot with
    | none => exact absurd hslot (recordAccepted_ne_none vb slot)
    | some s =>
      rw [hslot] at h1
      simp only [storedAmount] at h1
      simp only [recordAccepted]
      rw [if_neg (by omega)]
      simp only [storedAmount, Nat.max_def]
      split <;> omega
  · intro slot' ops
    have h1 : vb.amount ≤ storedAmount (recordAccepted vb slot') :=
      le_storedAmount_recordAccepted vb slot'
    have h2 := storedAmount_foldl_le ops (recordAccepted vb slot')
    omega

/-- Concrete voucher with amount 5 used in the C2 witness. -/
def svA : StoredVoucher :=
  { channelId := "0xchan", amount := 5, nonce := 1, signature := "0xaa",
    consumer := "0xc0", receivedAt := 10, claimed := false }

/-- Concrete voucher with amount 9 used in the C2 witness. -/
def svB : StoredVoucher :=
  { channelId := "0xchan", amount := 9, nonce := 2, signature := "0xbb",
    consumer := "0xc0", receivedAt := 11, claimed := false }

theorem record_converges_to_max_witness :
    storedAmount (recordAccepted svB (recordAccepted svA none)) = max 5 9
    ∧ storedAmount (recordAccepted svA (recordAccepted svB none)) = max 5 9
    ∧ ∀ (slot' : Option StoredVoucher) (ops : List LedgerOp),
        storedAmount (ops.foldl applyOp (recordAccepted svB slot')) ≠ 5 :=
  record_converges_to_max none svA svB (by decide) (by decide)

/-! ## Structural voucher checks (modelled from the spec) -/

/-- Hex digit check (0-9, a-f, A-F). -/
def isHexDigitChar (c : Char) : Bool :=
  c.isDigit || (Char.ofNat 97 ≤ c && c ≤ Char.ofNat 102) ||
    (Char.ofNat 65 ≤ c && c ≤ Char.ofNat 70)

/-- Modelled from the spec: well-formedness of the hex `channelId` (an opaque
32-byte identifier, so 64 hex digits after the `0x` tag); the parsing code
lives in `drain.ts`, which is not in `src/`. -/
def isHexId (s : String) : Bool :=
  match s.toList with
  | c0 :: c1 :: rest =>
    c0 == Char.ofNat 48 && c1 == Char.ofNat 120 && rest.length = 64 &&
      rest.all isHexDigitChar
  | _ => false

/-- Modelled from the spec: well-formedness of the hex `signature`
(`drain.ts` is not in `src/`): a nonempty hex string after the `0x` tag. -/
def isHexSig (s : String) : Bool :=
  match s.toList with
  | c0 :: c1 :: rest =>
    c0 == Char.ofNat 48 && c1 == Char.ofNat 120 && rest.length ≠ 0 &&
      rest.all isHexDigitChar
  | _ => false

/-- Modelled from the spec: parse a decimal string as a non-negative integer
(`drain.ts` is not in `src/`). -/
def parseDecimal (s : String) : Option ℕ :=
  if s.length ≠ 0 && s.toList.all (fun c => c.isDigit) then
    some (s.toList.foldl (fun acc c => 10 * acc + (c.toNat - 48)) 0)
  else none

/-- Modelled from the spec: the validator's structural check (step 1 of
4.1, `drain.ts` is not in `src/`): `channelId` well-formed, `amount` and
`nonce` parseable as non-negative integers, `signature` well-formed. -/
def structCheck (w : VoucherWire) : Option Voucher :=
  if isHexId w.channelId && isHexSig w.signature then
    match parseDecimal w.amount, parseDecimal w.nonce with
    | some a, some n => some ⟨w.channelId, a, n, w.signature⟩
    | _, _ => none
  else none

/-! ## The voucher validator (modelled from the spec) -/

/-- Rejection reasons of the validator (spec section 7). -/
inductive VError where
  | invalidFormat
  | channelNotFound
  | channelExpired
  | invalidSignature
  | staleVoucher
  | insufficientFunds
deriving DecidableEq, Repr

/-- The result of an accepted validation: the parsed voucher, the channel
snapshot and the delta attributable to this call. -/
structure AcceptInfo where
  voucher : Voucher
  channel : ChannelState
  delta : ℕ
deriving DecidableEq, Repr

/-- Channel snapshot returned on acceptance: the ledger facts plus the
previously recorded running charge total. -/
def channelSnapshot (v : Voucher) (ch : Channel) (storedAmt : ℕ) :
    ChannelState :=
  ⟨v.channelId, ch.consumer, ch.deposit, storedAmt, ch.expiry⟩

/-- Modelled from the spec: step 5 of the validator (`drain.ts` is not in
`src/`): `delta = amount - storedAmount` must cover the required cost and
the voucher amount must not exceed the deposit. -/
def fundsCheck (v : Voucher) (ch : Channel) (storedAmt : ℕ) (cost : ℕ) :
    Except VError AcceptInfo :=
  if ((v.amount : ℤ) - (storedAmt : ℤ)) < (cost : ℤ) then
    .error .insufficientFunds
  else if ch.deposit < v.amount then .error .insufficientFunds
  else .ok ⟨v, channelSnapshot v ch storedAmt,
            ((v.amount : ℤ) - (storedAmt : ℤ)).toNat⟩

/-- Events observable during a request, used to state ordering properties:
channel-ledger reads, the validation decision, the downstream TPN lease
call (with the lease duration it was given), the recording of the charge,
and the HTTP response (with its status). -/
inductive HEvent where
  | ledgerRead : String → HEvent
  | validated : HEvent
  | serviceCall : ℤ → HEvent
  | recordCharge : HEvent
  | respond : ℕ → HEvent
deriving DecidableEq, Repr

/-- Modelled from the spec: `validateVoucher` of `drain.ts` (not in `src/`),
following spec section 4.1: structural check, channel resolution (the only
channel-ledger read, recorded in the trace), expiry check, signature
recovery, nonce/stale check with the idempotent-replay acceptance, and the
funds check. Signature recovery is abstracted as the `recover` function. -/
def validateVoucher (lookup : String → Option Channel)
    (recover : Voucher → Option String) (store : Store) (now : ℕ)
    (w : VoucherWire) (cost : ℕ) : List HEvent × Except VError AcceptInfo :=
  match structCheck w with
  | none => ([], .error .invalidFormat)
  | some v =>
    match lookup v.channelId with
    | none => ([.ledgerRead v.channelId], .error .channelNotFound)
    | some ch =>
      ([.ledgerRead v.channelId],
        if ch.expiry ≤ now then .error .channelExpired
        else if recover v ≠ some ch.consumer then .error .invalidSignature
        else
          match store v.channelId with
          | none => fundsCheck v ch 0 cost
          | some s =>
            if v.nonce < s.nonce then .error .staleVoucher
            else if v.nonce = s.nonce then
              (if v.amount = s.amount then
                .ok ⟨v, channelSnapshot v ch s.amount, 0⟩
               else .error .staleVoucher)
            else fundsCheck v ch s.amount cost)

/-! ## Pricing (from `src/providers/community-tpn/src/config.ts`) -/

/-- The configuration fields consumed by the embedded code. Prices are USD
amounts (the source keeps them as numbers); lease bounds come from
`MAX_LEASE_SECONDS` / `DEFAULT_LEASE_SECONDS`. -/
structure ProviderConfig where
  pricePerHourUsdc : ℚ
  minPriceUsdc : ℚ
  maxLeaseSeconds : ℤ
  defaultLeaseSeconds : ℤ
deriving DecidableEq

/-- `calculateCost` from `config.ts`: cost in USDC wei (6 decimals) for a
lease duration, `max(minPriceWei, hourlyPriceWei * leaseSeconds / 3600)`
with both prices rounded up to integer wei. -/
def calculateCost (leaseSeconds : ℕ) (config : ProviderConfig) : ℕ :=
  let hourlyPriceWei := (⌈config.pricePerHourUsdc * 1000000⌉).toNat
  let minPriceWei := (⌈config.minPriceUsdc * 1000000⌉).toNat
  let durationCost := hourlyPriceWei * leaseSeconds / 3600
  if durationCost > minPriceWei then durationCost else minPriceWei

/-- `getSupportedModels` from `config.ts`: the keys of the `MODELS` table. -/
def getSupportedModels : List String := ["tpn/wireguard", "tpn/socks5"]

/-- `isModelSupported` from `config.ts`. -/
def isModelSupported (modelId : String) : Bool :=
  getSupportedModels.contains modelId

/-- The lease-duration clamp from step 5 of the chat-completions handler in
`index.ts`: substitute the default when absent, then clamp to
`[1, maxLeaseSeconds]`. -/
def clampLease (requested : Option ℤ) (config : ProviderConfig) : ℤ :=
  min (max (requested.getD config.defaultLeaseSeconds) 1)
    config.maxLeaseSeconds

/-! ## The chat-completions handler (from `index.ts`) -/

/-- The response-accounting headers produced on an accepted call
(`index.ts`, step 10): `X-DRAIN-Cost`, `X-DRAIN-Total`, `X-DRAIN-Remaining`,
`X-DRAIN-Channel`. -/
structure DrainHeaders where
  cost : ℕ
  total : ℕ
  remaining : ℤ
  channel : String
deriving DecidableEq, Repr

/-- The header computation of `index.ts` (steps 9-10): the cumulative total
is the channel's previous total plus this call's cost, and the remaining
balance is the deposit minus that total. -/
def responseHeaders (v : Voucher) (ch : ChannelState) (cost : ℕ) :
    DrainHeaders :=
  { cost := cost
    total := ch.totalCharged + cost
    remaining := (ch.deposit : ℤ) - ((ch.totalCharged + cost : ℕ) : ℤ)
    channel := v.channelId }

/-- The `StoredVoucher` built from an accepted voucher and the channel
snapshot it validated against. -/
def toStored (v : Voucher) (ch : ChannelState) (now : ℕ) : StoredVoucher :=
  ⟨v.channelId, v.amount, v.nonce, v.signature, ch.consumer, now, false,
    none, none⟩

/-- Modelled from the spec: `storeVoucher` of `drain.ts` (not in `src/`):
record the accepted voucher in the per-channel slot of the ledger via
`recordAccepted`; other channels are untouched. -/
def storeVoucher (v : Voucher) (ch : ChannelState) (now : ℕ)
    (store : Store) : Store :=
  fun cid =>
    if cid = v.channelId then recordAccepted (toStored v ch now) (store cid)
    else store cid

/-- Lease parameters parsed from the last user message (`types.ts`). -/
structure LeaseParams where
  lease_seconds : Option ℤ := none
  geo : Option String := none
  connection_type : Option String := none
deriving DecidableEq, Repr

/-- A chat message. -/
structure Msg where
  role : String
  content : String
deriving DecidableEq, Repr

/-- The parts of a chat-completions request the handler consumes. -/
structure ChatRequest where
  voucherHeader : Option String
  model : Option String
  messages : Option (List Msg)
deriving DecidableEq, Repr

/-- The handler's observable outcome: its event trace, HTTP status and
accounting headers (present only on acceptance). -/
structure HandlerResult where
  trace : List HEvent
  status : ℕ
  headers : Option DrainHeaders
deriving DecidableEq, Repr

/-- The environment of external collaborators the handler consults: the
voucher-header and lease-parameter JSON decoders, the channel-ledger read,
signature recovery, the TPN lease call (taking the lease duration it is
asked for), the clock, and the configuration. -/
structure HandlerEnv where
  parseVoucher : String → Option VoucherWire
  parseLease : String → Option LeaseParams
  lookup : String → Option Channel
  recover : Voucher → Option String
  leaseFn : ℤ → Except String Unit
  now : ℕ
  cfg : ProviderConfig

/-- Steps 6-10 of the chat-completions handler (`index.ts`), applied to the
clamped lease duration and the cost computed from it:
validate the voucher (402 on rejection), request
the lease from TPN (502 on failure, nothing stored), then store the voucher
and respond 200 with the accounting headers. -/
def paidCallRun (env : HandlerEnv) (store : Store) (w : VoucherWire)
    (leaseSeconds : ℤ) (cost : ℕ) : HandlerResult × Store :=
  match validateVoucher env.lookup env.recover store env.now w cost with
  | (vtr, .error _) => (⟨vtr ++ [.respond 402], 402, none⟩, store)
  | (vtr, .ok info) =>
    match env.leaseFn leaseSeconds with
    | .error _ =>
      (⟨vtr ++ [.validated, .serviceCall leaseSeconds, .respond 502],
        502, none⟩, store)
    | .ok _ =>
      (⟨vtr ++ [.validated, .serviceCall leaseSeconds, .recordCharge,
                .respond 200],
        200, some (responseHeaders info.voucher info.channel cost)⟩,
       storeVoucher info.voucher info.channel env.now store)

/-- Steps 5-6 of the handler: the lease duration is the clamped requested
duration, and the cost passed to validation is computed from that same
duration — both then flow into `paidCallRun`. -/
def paidCall (env : HandlerEnv) (store : Store) (w : VoucherWire)
    (lp : LeaseParams) : HandlerResult × Store :=
  paidCallRun env store w (clampLease lp.lease_seconds env.cfg)
    (calculateCost (clampLease lp.lease_seconds env.cfg).toNat env.cfg)

/-- The `POST /v1/chat/completions` handler from `index.ts`: require the
voucher header (402), decode it (402), resolve the model (400), extract and
decode the last user message (400), then run the paid call. -/
def chatCompletions (env : HandlerEnv) (store : Store) (req : ChatRequest) :
    HandlerResult × Store :=
  match req.voucherHeader with
  | none => (⟨[.respond 402], 402, none⟩, store)
  | some hdr =>
    match env.parseVoucher hdr with
    | none => (⟨[.respond 402], 402, none⟩, store)
    | some w =>
      match req.model with
      | none => (⟨[.respond 400], 400, none⟩, store)
      | some m =>
        if isModelSupported m then
          match ((req.messages.getD []).filter
              (fun msg => msg.role == "user")).getLast? with
          | none => (⟨[.respond 400], 400, none⟩, store)
          | some lastMsg =>
            if lastMsg.content = "" then (⟨[.respond 400], 400, none⟩, store)
            else
              match env.parseLease lastMsg.content with
              | none => (⟨[.respond 400], 400, none⟩, store)
              | some lp => paidCall env store w lp
        else (⟨[.respond 400], 400, none⟩, store)

/-! ## The admin voucher listing (from `index.ts`) -/

/-- One entry of the `GET /v1/admin/vouchers` response (`index.ts`):
channel id, amount and nonce rendered as decimal strings, consumer, and the
receipt time. -/
structure AdminVoucherEntry where
  channelId : String
  amount : String
  nonce : String
  consumer : String
  receivedAt : ℕ
deriving DecidableEq, Repr

/-- The per-voucher projection performed by the admin handler. -/
def adminVoucherEntry (v : StoredVoucher) : AdminVoucherEntry :=
  ⟨v.channelId, toString v.amount, toString v.nonce, v.consumer,
    v.receivedAt⟩

/-- Modelled from the spec: `getUnclaimedVouchers` of the VoucherStorage
(`storage.ts` is not in `src/`): the stored vouchers whose `claimed` flag is
false. -/
def getUnclaimedVouchers (vouchers : List StoredVoucher) :
    List StoredVoucher :=
  vouchers.filter (fun v => !v.claimed)

/-- The `GET /v1/admin/vouchers` response body. -/
structure AdminVouchersResponse where
  count : ℕ
  vouchers : List AdminVoucherEntry
deriving DecidableEq, Repr

/-- The `GET /v1/admin/vouchers` handler from `index.ts`. -/
def adminVouchers (vouchers : List StoredVoucher) : AdminVouchersResponse :=
  let unclaimed := getUnclaimedVouchers vouchers
  ⟨unclaimed.length, unclaimed.map adminVoucherEntry⟩

lemma validateVoucher_trace_shape (l : String → Option Channel)
    (r : Voucher → Option String) (s : Store) (n : ℕ) (w : VoucherWire)
    (c : ℕ) :
    (validateVoucher l r s n w c).1 = [] ∨
      ∃ cid, (validateVoucher l r s n w c).1 = [HEvent.ledgerRead cid] := by
  rcases hw : structCheck w with _ | v
  · left; simp [validateVoucher, hw]
  · rcases hch : l v.channelId with _ | ch
    · right; exact ⟨v.channelId, by simp [validateVoucher, hw, hch]⟩
    · right; exact ⟨v.channelId, by simp [validateVoucher, hw, hch]⟩

lemma validateVoucher_ok (l : String → Option Channel)
    (r : Voucher → Option String) (s : Store) (n : ℕ) (w : VoucherWire)
    (c : ℕ) (tr : List HEvent) (info : AcceptInfo)
    (h : validateVoucher l r s n w c = (tr, Except.ok info)) :
    tr = [HEvent.ledgerRead info.voucher.channelId]
    ∧ structCheck w = some info.voucher
    ∧ info.channel.channelId = info.voucher.channelId
    ∧ info.channel.totalCharged = storedAmount (s info.voucher.channelId) := by
  obtain ⟨iv, ichan, idelta⟩ := info
  rcases hw : structCheck w with _ | v
  · simp [validateVoucher, hw] at h
  · rcases hch : l v.channelId with _ | ch
    · simp [validateVoucher, hw, hch] at h
    · rcases hst : s v.channelId with _ | sv
      · simp only [validateVoucher, hw, hch, hst] at h
        rw [Prod.mk.injEq] at h
        obtain ⟨htr, hres⟩ := h
        split at hres
        · exact absurd hres (by simp)
        · split at hres
          · exact absurd hres (by simp)
          · unfold fundsCheck at hres
            split at hres
            · exact absurd hres (by simp)
            · split at hres
              · exact absurd hres (by simp)
              · rw [Except.ok.injEq, AcceptInfo.mk.injEq] at hres
                obtain ⟨hv, hcH, -⟩ := hres
                subst hv
                subst hcH
                exact ⟨htr.symm, rfl, rfl, by simp [channelSnapshot, storedAmount, hst]⟩
      · simp only [validateVoucher, hw, hch, hst] at h
        rw [Prod.mk.injEq] at h
        obtain ⟨htr, hres⟩ := h
        split at hres
        · exact absurd hres (by simp)
        · split at hres
          · exact absurd hres (by simp)
          · split at hres
            · exact absurd hres (by simp)
            · split at hres
              · split at hres
                · rw [Except.ok.injEq, AcceptInfo.mk.injEq] at hres
                  obtain ⟨hv, hcH, -⟩ := hres
                  subst hv
                  subst hcH
                  exact ⟨htr.symm, rfl, rfl, by simp [channelSnapshot, storedAmount, hst]⟩
                · exact absurd hres (by simp)
              · unfold fundsCheck at hres
                split at hres
                · exact absurd hres (by simp)
                · split at hres
                  · exact absurd hres (by simp)
                  · rw [Except.ok.injEq, AcceptInfo.mk.injEq] at hres
                    obtain ⟨hv, hcH, -⟩ := hres
                    subst hv
                    subst hcH
                    exact ⟨htr.symm, rfl, rfl, by simp [channelSnapshot, storedAmount, hst]⟩

lemma chatCompletions_cases (env : HandlerEnv) (store : Store)
    (req : ChatRequest) :
    (∃ st, (st = 400 ∨ st = 402) ∧
      chatCompletions env store req = (⟨[HEvent.respond st], st, none⟩, store))
    ∨ (∃ w lp, (∃ hdr, req.voucherHeader = some hdr ∧
          env.parseVoucher hdr = some w) ∧
        chatCompletions env store req = paidCall env store w lp) := by
  obtain ⟨vh, mdl, msgs⟩ := req
  rcases vh with _ | hdr
  · left; exact ⟨402, Or.inr rfl, rfl⟩
  · rcases hpv : env.parseVoucher hdr with _ | w
    · left; refine ⟨402, Or.inr rfl, ?_⟩
      simp [chatCompletions, hpv]
    · rcases mdl with _ | m
      · left; refine ⟨400, Or.inl rfl, ?_⟩
        simp [chatCompletions, hpv]
      · rcases hsup : isModelSupported m with _ | _
        · left; refine ⟨400, Or.inl rfl, ?_⟩
          simp [chatCompletions, hpv, hsup]
        · rcases hlast : ((msgs.getD []).filter
              (fun msg => msg.role == "user")).getLast? with _ | lastMsg
          · left; refine ⟨400, Or.inl rfl, ?_⟩
            simp [chatCompletions, hpv, hsup, hlast]
          · by_cases hcont : lastMsg.content = ""
            · left; refine ⟨400, Or.inl rfl, ?_⟩
              simp [chatCompletions, hpv, hsup, hlast, hcont]
            · rcases hpl : env.parseLease lastMsg.content with _ | lp
              · left; refine ⟨400, Or.inl rfl, ?_⟩
                simp [chatCompletions, hpv, hsup, hlast, hcont, hpl]
              · right
                refine ⟨w, lp, ⟨hdr, rfl, hpv⟩, ?_⟩
                simp [chatCompletions, hpv, hsup, hlast, hcont, hpl]

lemma paidCall_cases (env : HandlerEnv) (store : Store) (w : VoucherWire)
    (lp : LeaseParams) :
    (∃ vtr e,
      validateVoucher env.lookup env.recover store env.now w
          (calculateCost (clampLease lp.lease_seconds env.cfg).toNat
            env.cfg) = (vtr, Except.error e) ∧
      paidCall env store w lp =
        (⟨vtr ++ [HEvent.respond 402], 402, none⟩, store))
    ∨ (∃ vtr info err,
      validateVoucher env.lookup env.recover store env.now w
          (calculateCost (clampLease lp.lease_seconds env.cfg).toNat
            env.cfg) = (vtr, Except.ok info) ∧
      env.leaseFn (clampLease lp.lease_seconds env.cfg) =
        Except.error err ∧
      paidCall env store w lp =
        (⟨vtr ++ [HEvent.validated,
                  HEvent.serviceCall (clampLease lp.lease_seconds env.cfg),
                  HEvent.respond 502], 502, none⟩, store))
    ∨ (∃ vtr info,
      validateVoucher env.lookup env.recover store env.now w
          (calculateCost (clampLease lp.lease_seconds env.cfg).toNat
            env.cfg) = (vtr, Except.ok info) ∧
      (∃ u, env.leaseFn (clampLease lp.lease_seconds env.cfg) =
        Except.ok u) ∧
      paidCall env store w lp =
        (⟨vtr ++ [HEvent.validated,
                  HEvent.serviceCall (clampLease lp.lease_seconds env.cfg),
                  HEvent.recordCharge, HEvent.respond 200], 200,
          some (responseHeaders info.voucher info.channel
            (calculateCost (clampLease lp.lease_seconds env.cfg).toNat
              env.cfg))⟩,
         storeVoucher info.voucher info.channel env.now store)) := by
  rcases hval : validateVoucher env.lookup env.recover store env.now w
      (calculateCost (clampLease lp.lease_seconds env.cfg).toNat env.cfg)
    with ⟨vtr, res⟩
  rcases res with e | info
  · left
    refine ⟨vtr, e, rfl, ?_⟩
    unfold paidCall paidCallRun
    rw [hval]
  · rcases hlf : env.leaseFn (clampLease lp.lease_seconds env.cfg)
      with err | u
    · right; left
      refine ⟨vtr, info, err, rfl, rfl, ?_⟩
      unfold paidCall paidCallRun
      rw [hval, hlf]
    · right; right
      refine ⟨vtr, info, rfl, ⟨u, rfl⟩, ?_⟩
      unfold paidCall paidCallRun
      rw [hval, hlf]

/-- C5 (amended): for every accepted paid request the events happen in the
order: validation concludes, then the gated TPN service logic executes, then
the charge is recorded, then the 200 response is produced — the charge is
recorded after the service call succeeds, not before it. -/
theorem charge_recorded_after_service (env : HandlerEnv) (store : Store)
    (req : ChatRequest)
    (h : (chatCompletions env store req).1.status = 200) :
    ∃ cid d, (chatCompletions env store req).1.trace =
      [HEvent.ledgerRead cid, HEvent.validated, HEvent.serviceCall d,
       HEvent.recordCharge, HEvent.respond 200] := by
  rcases chatCompletions_cases env store req with
    ⟨st, hst, heq⟩ | ⟨w, lp, -, heq⟩
  · rw [heq] at h
    simp at h
    omega
  · rw [heq] at h ⊢
    rcases paidCall_cases env store w lp with
      ⟨vtr, e, hval, hpc⟩ | ⟨vtr, info, err, hval, hlf, hpc⟩ |
      ⟨vtr, info, hval, hlf, hpc⟩
    · rw [hpc] at h; simp at h
    · rw [hpc] at h; simp at h
    · rw [hpc]
      obtain ⟨htr, -, -, -⟩ :=
        validateVoucher_ok _ _ _ _ _ _ _ _ hval
      exact ⟨info.voucher.channelId,
        clampLease lp.lease_seconds env.cfg, by rw [htr]; rfl⟩

/-- C3: every accepted call on the chat-completions handler carries the four
accounting headers: the cost charged for this call, the cumulative total
(the channel's previously recorded charge total plus this call's cost), the
remaining balance (deposit minus that cumulative total), and the channel id
of the presented voucher. -/
theorem accepted_response_headers (env : HandlerEnv) (store : Store)
    (req : ChatRequest)
    (h : (chatCompletions env store req).1.status = 200) :
    ∃ (v : Voucher) (ch : ChannelState) (c : ℕ),
      (chatCompletions env store req).1.headers =
        some (responseHeaders v ch c)
      ∧ (responseHeaders v ch c).cost = c
      ∧ (responseHeaders v ch c).total = ch.totalCharged + c
      ∧ (responseHeaders v ch c).remaining =
          (ch.deposit : ℤ) - ((responseHeaders v ch c).total : ℤ)
      ∧ (responseHeaders v ch c).channel = v.channelId
      ∧ ch.channelId = v.channelId
      ∧ ch.totalCharged = storedAmount (store v.channelId) := by
  rcases chatCompletions_cases env store req with
    ⟨st, hst, heq⟩ | ⟨w, lp, -, heq⟩
  · rw [heq] at h
    simp at h
    omega
  · rw [heq] at h ⊢
    rcases paidCall_cases env store w lp with
      ⟨vtr, e, hval, hpc⟩ | ⟨vtr, info, err, hval, hlf, hpc⟩ |
      ⟨vtr, info, hval, hlf, hpc⟩
    · rw [hpc] at h; simp at h
    · rw [hpc] at h; simp at h
    · rw [hpc]
      obtain ⟨-, -, hcid, htot⟩ :=
        validateVoucher_ok _ _ _ _ _ _ _ _ hval
      exact ⟨info.voucher, info.channel,
        calculateCost (clampLease lp.lease_seconds env.cfg).toNat env.cfg,
        rfl, rfl, rfl, rfl, rfl, hcid, htot⟩

/-- C8: when the voucher validates but the downstream TPN lease request
fails, the handler responds 502, no charge is recorded (no `recordCharge`
event, no accounting headers), and the voucher store is unchanged. -/
theorem lease_failure_no_charge (env : HandlerEnv) (store : Store)
    (req : ChatRequest) (e : String)
    (hfail : ∀ d : ℤ, env.leaseFn d = Except.error e)
    (hv : HEvent.validated ∈ (chatCompletions env store req).1.trace) :
    (chatCompletions env store req).1.status = 502
    ∧ HEvent.recordCharge ∉ (chatCompletions env store req).1.trace
    ∧ (chatCompletions env store req).1.headers = none
    ∧ (chatCompletions env store req).2 = store := by
  rcases chatCompletions_cases env store req with
    ⟨st, hst, heq⟩ | ⟨w, lp, -, heq⟩
  · rw [heq] at hv
    simp at hv
  · rw [heq] at hv ⊢
    rcases paidCall_cases env store w lp with
      ⟨vtr, e', hval, hpc⟩ | ⟨vtr, info, err, hval, hlf, hpc⟩ |
      ⟨vtr, info, hval, hlf, hpc⟩
    · rw [hpc] at hv
      have hsh := validateVoucher_trace_shape env.lookup env.recover store
        env.now w
        (calculateCost (clampLease lp.lease_seconds env.cfg).toNat env.cfg)
      rw [hval] at hsh
      rcases hsh with h0 | ⟨cid, h1⟩
      · have h0' : vtr = [] := h0
        subst h0'
        simp at hv
      · have h1' : vtr = [HEvent.ledgerRead cid] := h1
        subst h1'
        simp at hv
    · have hsh := validateVoucher_trace_shape env.lookup env.recover store
        env.now w
        (calculateCost (clampLease lp.lease_seconds env.cfg).toNat env.cfg)
      rw [hval] at hsh
      rw [hpc]
      rcases hsh with h0 | ⟨cid, h1⟩
      · have h0' : vtr = [] := h0
        subst h0'
        simp
      · have h1' : vtr = [HEvent.ledgerRead cid] := h1
        subst h1'
        simp
    · obtain ⟨u, hu⟩ := hlf
      rw [hfail] at hu
      simp at hu

/-- C10: the lease duration used by the handler is the requested duration
(defaulting to `defaultLeaseSeconds` when absent) clamped to
`[1, maxLeaseSeconds]`; whenever the handler performs a TPN lease request it
does so with a duration inside that interval, and the cost it charges on
acceptance is computed from that same duration. -/
theorem lease_clamp (env : HandlerEnv) (store : Store) (req : ChatRequest)
    (r : Option ℤ) (d : ℤ) (h : 1 ≤ env.cfg.maxLeaseSeconds) :
    1 ≤ clampLease r env.cfg
    ∧ clampLease r env.cfg ≤ env.cfg.maxLeaseSeconds
    ∧ clampLease none env.cfg =
        min (max env.cfg.defaultLeaseSeconds 1) env.cfg.maxLeaseSeconds
    ∧ (HEvent.serviceCall d ∈ (chatCompletions env store req).1.trace →
        1 ≤ d ∧ d ≤ env.cfg.maxLeaseSeconds
        ∧ ∀ hd, (chatCompletions env store req).1.headers = some hd →
            hd.cost = calculateCost d.toNat env.cfg) := by
  have hclamp : ∀ r' : Option ℤ, 1 ≤ clampLease r' env.cfg
      ∧ clampLease r' env.cfg ≤ env.cfg.maxLeaseSeconds := by
    intro r'
    unfold clampLease
    omega
  refine ⟨(hclamp r).1, (hclamp r).2, rfl, ?_⟩
  intro hmem
  rcases chatCompletions_cases env store req with
    ⟨st, hst, heq⟩ | ⟨w, lp, -, heq⟩
  · rw [heq] at hmem
    simp at hmem
  · rw [heq] at hmem ⊢
    have hsh := validateVoucher_trace_shape env.lookup env.recover store
      env.now w
      (calculateCost (clampLease lp.lease_seconds env.cfg).toNat env.cfg)
    rcases paidCall_cases env store w lp with
      ⟨vtr, e, hval, hpc⟩ | ⟨vtr, info, err, hval, hlf, hpc⟩ |
      ⟨vtr, info, hval, hlf, hpc⟩
    · rw [hval] at hsh
      rw [hpc] at hmem
      rcases hsh with h0 | ⟨cid, h1⟩
      · have h0' : vtr = [] := h0
        subst h0'
        simp at hmem
      · have h1' : vtr = [HEvent.ledgerRead cid] := h1
        subst h1'
        simp at hmem
    · rw [hval] at hsh
      rw [hpc] at hmem ⊢
      have hd : d = clampLease lp.lease_seconds env.cfg := by
        rcases hsh with h0 | ⟨cid, h1⟩
        · have h0' : vtr = [] := h0
          subst h0'
          simp at hmem
          exact hmem
        · have h1' : vtr = [HEvent.ledgerRead cid] := h1
          subst h1'
          simp at hmem
          exact hmem
      subst hd
      refine ⟨(hclamp lp.lease_seconds).1, (hclamp lp.lease_seconds).2, ?_⟩
      intro hd hhd
      simp at hhd
    · rw [hval] at hsh
      rw [hpc] at hmem ⊢
      have hd : d = clampLease lp.lease_seconds env.cfg := by
        rcases hsh with h0 | ⟨cid, h1⟩
        · have h0' : vtr = [] := h0
          subst h0'
          simp at hmem
          exact hmem
        · have h1' : vtr = [HEvent.ledgerRead cid] := h1
          subst h1'
          simp at hmem
          exact hmem
      subst hd
      refine ⟨(hclamp lp.lease_seconds).1, (hclamp lp.lease_seconds).2, ?_⟩
      intro hd hhd
      simp only [Option.some.injEq] at hhd
      rw [← hhd]
      rfl

/-- C4: re-submitting the exact stored voucher (same nonce, same amount)
against a live channel is accepted with delta 0, and recording it again
leaves the per-channel slot — and hence the running charge total —
unchanged: `storeVoucher` is a no-op on the store. -/
theorem replay_idempotent (lookup : String → Option Channel)
    (recover : Voucher → Option String) (store : Store) (now cost : ℕ)
    (w : VoucherWire) (v : Voucher) (ch : Channel) (s : StoredVoucher)
    (hw : structCheck w = some v)
    (hch : lookup v.channelId = some ch)
    (hexp : ¬ ch.expiry ≤ now)
    (hsig : recover v = some ch.consumer)
    (hst : store v.channelId = some s)
    (hn : v.nonce = s.nonce) (ha : v.amount = s.amount) :
    (validateVoucher lookup recover store now w cost).2 =
      Except.ok ⟨v, channelSnapshot v ch s.amount, 0⟩
    ∧ (∀ t, storeVoucher v (channelSnapshot v ch s.amount) t store = store)
    ∧ storedAmount (store v.channelId) = s.amount := by
  refine ⟨?_, ?_, by rw [hst]; rfl⟩
  · simp only [validateVoucher, hw, hch, hst]
    rw [if_neg hexp, hsig, if_neg (by simp), if_neg (by omega), if_pos hn,
      if_pos ha]
  · intro t
    funext cid
    unfold storeVoucher
    by_cases hc : cid = v.channelId
    · subst hc
      rw [if_pos rfl, hst]
      have hlt : ¬ s.amount < v.amount := by omega
      simp [recordAccepted, toStored, hlt]
    · rw [if_neg hc]

/-- C6: a voucher whose structural check fails (malformed channel id,
amount, nonce or signature) is rejected as `InvalidFormat` with an empty
event trace — in particular before any channel-ledger read — and a request
carrying such a voucher never triggers a ledger read in the handler. -/
theorem malformed_voucher_no_ledger_read (lookup : String → Option Channel)
    (recover : Voucher → Option String) (store : Store) (now cost : ℕ)
    (w : VoucherWire) (cid : String)
    (h : structCheck w = none) :
    validateVoucher lookup recover store now w cost =
      ([], Except.error VError.invalidFormat)
    ∧ ∀ (env : HandlerEnv) (store' : Store) (req : ChatRequest),
        (∀ hdr, req.voucherHeader = some hdr →
          env.parseVoucher hdr = some w) →
        HEvent.ledgerRead cid ∉ (chatCompletions env store' req).1.trace := by
  constructor
  · simp [validateVoucher, h]
  · intro env store' req hp
    rcases chatCompletions_cases env store' req with
      ⟨st, hst, heq⟩ | ⟨w', lp, ⟨hdr', hreq', hparse'⟩, heq⟩
    · rw [heq]
      simp
    · have hww : w' = w := by
        have h2 := hp hdr' hreq'
        rw [hparse'] at h2
        exact Option.some.inj h2
      subst hww
      rw [heq]
      have h0 : validateVoucher env.lookup env.recover store' env.now w'
          (calculateCost (clampLease lp.lease_seconds env.cfg).toNat
            env.cfg) = ([], Except.error VError.invalidFormat) := by
        simp [validateVoucher, h]
      rcases paidCall_cases env store' w' lp with
        ⟨vtr, e, hval, hpc⟩ | ⟨vtr, info, err, hval, hlf, hpc⟩ |
        ⟨vtr, info, hval, hlf, hpc⟩
      · rw [h0] at hval
        rw [Prod.mk.injEq] at hval
        obtain ⟨hvtr, -⟩ := hval
        subst hvtr
        rw [hpc]
        simp
      · rw [h0] at hval
        simp at hval
      · rw [h0] at hval
        simp at hval

/-- C7: the admin voucher listing returns exactly the stored vouchers whose
`claimed` flag is false, its `count` equals the number of those vouchers,
and each listed entry exposes the voucher's channel id, amount, nonce,
consumer and received time. -/
theorem admin_vouchers_exact (vouchers : List StoredVoucher)
    (v : StoredVoucher) :
    (adminVouchers vouchers).count = (adminVouchers vouchers).vouchers.length
    ∧ (adminVouchers vouchers).vouchers =
        (vouchers.filter (fun u => u.claimed = false)).map adminVoucherEntry
    ∧ (v ∈ vouchers → v.claimed = false →
        adminVoucherEntry v ∈ (adminVouchers vouchers).vouchers)
    ∧ (∀ e ∈ (adminVouchers vouchers).vouchers,
        ∃ u, u ∈ vouchers ∧ u.claimed = false ∧ e = adminVoucherEntry u)
    ∧ (adminVoucherEntry v).channelId = v.channelId
    ∧ (adminVoucherEntry v).amount = toString v.amount
    ∧ (adminVoucherEntry v).nonce = toString v.nonce
    ∧ (adminVoucherEntry v).consumer = v.consumer
    ∧ (adminVoucherEntry v).receivedAt = v.receivedAt := by
  have hfilter : vouchers.filter (fun u => !u.claimed) =
      vouchers.filter (fun u => decide (u.claimed = false)) := by
    apply List.filter_congr
    intro u _
    cases hu : u.claimed <;> simp [hu]
  refine ⟨?_, ?_, ?_, ?_, rfl, rfl, rfl, rfl, rfl⟩
  · simp [adminVouchers]
  · simp only [adminVouchers, getUnclaimedVouchers]
    rw [hfilter]
  · intro hmem hcl
    simp only [adminVouchers, getUnclaimedVouchers]
    exact List.mem_map_of_mem _ (List.mem_filter.mpr ⟨hmem, by simp [hcl]⟩)
  · intro e he
    simp only [adminVouchers, getUnclaimedVouchers] at he
    obtain ⟨u, hu, hue⟩ := List.mem_map.mp he
    obtain ⟨hu1, hu2⟩ := List.mem_filter.mp hu
    exact ⟨u, hu1, by simpa using hu2, hue.symm⟩

/-- C9: `calculateCost` equals the maximum of the minimum price (rounded up
to integer USDC wei) and the duration cost (hourly price in wei times the
lease seconds, floor-divided by 3600); consequently it is bounded below by
the minimum price and is monotone in the lease duration. -/
theorem calculateCost_max_min_monotone (config : ProviderConfig)
    (s t : ℕ) :
    calculateCost s config =
      max ((⌈config.minPriceUsdc * 1000000⌉).toNat)
        ((⌈config.pricePerHourUsdc * 1000000⌉).toNat * s / 3600)
    ∧ (⌈config.minPriceUsdc * 1000000⌉).toNat ≤ calculateCost s config
    ∧ (s ≤ t → calculateCost s config ≤ calculateCost t config) := by
  have key : ∀ n : ℕ, calculateCost n config =
      max ((⌈config.minPriceUsdc * 1000000⌉).toNat)
        ((⌈config.pricePerHourUsdc * 1000000⌉).toNat * n / 3600) := by
    intro n
    simp only [calculateCost]
    rw [Nat.max_def]
    split <;> split <;> omega
  refine ⟨key s, ?_, ?_⟩
  · rw [key s]
    exact le_max_left _ _
  · intro hst
    rw [key s, key t]
    exact max_le_max (le_refl _)
      (Nat.div_le_div_right (Nat.mul_le_mul_left _ hst))

/-! ## Concrete instances used by the witnesses and the counterexample -/

/-- A well-formed 32-byte channel id. -/
def cidC : String :=
  "0x1111111111111111111111111111111111111111111111111111111111111111"

/-- A well-formed wire voucher for `cidC`: amount 1000000, nonce 1. -/
def wireC : VoucherWire := ⟨cidC, "1000000", "1", "0xabcd"⟩

/-- The parsed form of `wireC`. -/
def vC : Voucher := ⟨cidC, 1000000, 1, "0xabcd"⟩

/-- A live channel: deposit 2000000, expiry 100. -/
def chC : Channel := ⟨"0xconsumer", 2000000, 100⟩

/-- A configuration with zero prices and the default lease bounds. -/
def cfgC : ProviderConfig := ⟨0, 0, 86400, 3600⟩

/-- Lease parameters requesting 3600 seconds. -/
def lpC : LeaseParams := { lease_seconds := some 3600 }

/-- Channel lookup resolving exactly `cidC`. -/
def lookupC : String → Option Channel :=
  fun cid => if cid = cidC then some chC else none

/-- Signature recovery that always resolves the channel consumer. -/
def recoverC : Voucher → Option String := fun _ => some "0xconsumer"

/-- A handler environment in which every collaborator succeeds. -/
def envC : HandlerEnv :=
  { parseVoucher := fun _ => some wireC
    parseLease := fun _ => some lpC
    lookup := lookupC
    recover := recoverC
    leaseFn := fun _ => .ok ()
    now := 0
    cfg := cfgC }

/-- The same environment with a failing TPN lease call. -/
def envF : HandlerEnv := { envC with leaseFn := fun _ => .error "boom" }

/-- The empty voucher store. -/
def store0 : Store := fun _ => none

/-- A request carrying a voucher header, a supported model and one user
message. -/
def reqC : ChatRequest :=
  ⟨some "hdr", some "tpn/wireguard", some [⟨"user", "lease"⟩]⟩

/-- The stored voucher matching `vC` exactly (same nonce, same amount). -/
def svStored : StoredVoucher :=
  ⟨cidC, 1000000, 1, "0xabcd", "0xconsumer", 0, false, none, none⟩

/-- A store holding `svStored` for `cidC`. -/
def store1 : Store := fun cid => if cid = cidC then some svStored else none

/-- A structurally malformed wire voucher (channel id too short). -/
def wBad : VoucherWire := ⟨"0x12", "10", "0", "0xab"⟩

lemma calculateCost_cfgC (n : ℕ) : calculateCost n cfgC = 0 := by
  simp [calculateCost, cfgC]

lemma chat_envC_eq :
    chatCompletions envC store0 reqC = paidCallRun envC store0 wireC 3600 0 := by
  have e1 : envC.parseVoucher "hdr" = some wireC := rfl
  have e2 : envC.parseLease "lease" = some lpC := rfl
  have h1 : chatCompletions envC store0 reqC =
      paidCall envC store0 wireC lpC := by
    simp +decide [chatCompletions, reqC, isModelSupported,
      getSupportedModels, e1, e2]
  have h2 : clampLease lpC.lease_seconds envC.cfg = (3600 : ℤ) := by decide
  have h3 : calculateCost ((3600 : ℤ)).toNat envC.cfg = 0 :=
    calculateCost_cfgC _
  rw [h1]
  unfold paidCall
  rw [h2, h3]

lemma runC_fst :
    (chatCompletions envC store0 reqC).1 =
      ⟨[HEvent.ledgerRead cidC, HEvent.validated, HEvent.serviceCall 3600,
        HEvent.recordCharge, HEvent.respond 200], 200,
       some ⟨0, 0, 2000000, cidC⟩⟩ := by
  rw [chat_envC_eq]
  decide

lemma chat_envF_eq :
    chatCompletions envF store0 reqC = paidCallRun envF store0 wireC 3600 0 := by
  have e1 : envF.parseVoucher "hdr" = some wireC := rfl
  have e2 : envF.parseLease "lease" = some lpC := rfl
  have h1 : chatCompletions envF store0 reqC =
      paidCall envF store0 wireC lpC := by
    simp +decide [chatCompletions, reqC, isModelSupported,
      getSupportedModels, e1, e2]
  have h2 : clampLease lpC.lease_seconds envF.cfg = (3600 : ℤ) := by decide
  have h3 : calculateCost ((3600 : ℤ)).toNat envF.cfg = 0 :=
    calculateCost_cfgC _
  rw [h1]
  unfold paidCall
  rw [h2, h3]

lemma runF_fst :
    (chatCompletions envF store0 reqC).1 =
      ⟨[HEvent.ledgerRead cidC, HEvent.validated, HEvent.serviceCall 3600,
        HEvent.respond 502], 502, none⟩ := by
  rw [chat_envF_eq]
  decide

/-- C5 counterexample: a fully valid paid request is accepted (status 200),
yet in its event trace the TPN service call happens strictly before the
charge is recorded — refuting the claim that recording the charge precedes
execution of the service logic. -/
theorem charge_order_counterexample :
    (chatCompletions envC store0 reqC).1.status = 200
    ∧ (chatCompletions envC store0 reqC).1.trace =
      [HEvent.ledgerRead cidC, HEvent.validated, HEvent.serviceCall 3600,
       HEvent.recordCharge, HEvent.respond 200]
    ∧ (chatCompletions envC store0 reqC).1.trace.indexOf
          (HEvent.serviceCall 3600) <
        (chatCompletions envC store0 reqC).1.trace.indexOf
          HEvent.recordCharge := by
  rw [runC_fst]
  exact ⟨rfl, rfl, by decide⟩

theorem charge_recorded_after_service_witness :
    (chatCompletions envC store0 reqC).1.status = 200
    ∧ ∃ cid d, (chatCompletions envC store0 reqC).1.trace =
        [HEvent.ledgerRead cid, HEvent.validated, HEvent.serviceCall d,
         HEvent.recordCharge, HEvent.respond 200] :=
  ⟨by rw [runC_fst], charge_recorded_after_service envC store0 reqC
    (by rw [runC_fst])⟩

theorem accepted_response_headers_witness :
    (chatCompletions envC store0 reqC).1.status = 200
    ∧ ∃ (v : Voucher) (ch : ChannelState) (c : ℕ),
      (chatCompletions envC store0 reqC).1.headers =
        some (responseHeaders v ch c)
      ∧ (responseHeaders v ch c).cost = c
      ∧ (responseHeaders v ch c).total = ch.totalCharged + c
      ∧ (responseHeaders v ch c).remaining =
          (ch.deposit : ℤ) - ((responseHeaders v ch c).total : ℤ)
      ∧ (responseHeaders v ch c).channel = v.channelId
      ∧ ch.channelId = v.channelId
      ∧ ch.totalCharged = storedAmount (store0 v.channelId) :=
  ⟨by rw [runC_fst], accepted_response_headers envC store0 reqC
    (by rw [runC_fst])⟩

theorem replay_idempotent_witness :
    structCheck wireC = some vC
    ∧ (validateVoucher lookupC recoverC store1 0 wireC 5).2 =
        Except.ok ⟨vC, channelSnapshot vC chC 1000000, 0⟩
    ∧ (∀ t, storeVoucher vC (channelSnapshot vC chC 1000000) t store1 =
        store1)
    ∧ storedAmount (store1 vC.channelId) = 1000000 :=
  have h := replay_idempotent lookupC recoverC store1 0 5 wireC vC chC
    svStored (by decide) (by decide) (by decide) rfl (by decide) rfl rfl
  ⟨by decide, h.1, h.2.1, h.2.2⟩

theorem malformed_voucher_no_ledger_read_witness :
    structCheck wBad = none
    ∧ validateVoucher lookupC recoverC store0 0 wBad 5 =
        ([], Except.error VError.invalidFormat)
    ∧ ∀ (env : HandlerEnv) (store' : Store) (req : ChatRequest),
        (∀ hdr, req.voucherHeader = some hdr →
          env.parseVoucher hdr = some wBad) →
        HEvent.ledgerRead cidC ∉ (chatCompletions env store' req).1.trace :=
  have h := malformed_voucher_no_ledger_read lookupC recoverC store0 0 5
    wBad cidC (by decide)
  ⟨by decide, h.1, h.2⟩

theorem lease_failure_no_charge_witness :
    HEvent.validated ∈ (chatCompletions envF store0 reqC).1.trace
    ∧ (chatCompletions envF store0 reqC).1.status = 502
    ∧ HEvent.recordCharge ∉ (chatCompletions envF store0 reqC).1.trace
    ∧ (chatCompletions envF store0 reqC).1.headers = none
    ∧ (chatCompletions envF store0 reqC).2 = store0 :=
  have h := lease_failure_no_charge envF store0 reqC "boom" (fun _ => rfl)
    (by rw [runF_fst]; decide)
  ⟨by rw [runF_fst]; decide, h.1, h.2.1, h.2.2.1, h.2.2.2⟩

theorem lease_clamp_witness :
    1 ≤ envC.cfg.maxLeaseSeconds
    ∧ 1 ≤ clampLease (some 7) envC.cfg
    ∧ clampLease (some 7) envC.cfg ≤ envC.cfg.maxLeaseSeconds
    ∧ clampLease none envC.cfg =
        min (max envC.cfg.defaultLeaseSeconds 1) envC.cfg.maxLeaseSeconds
    ∧ (HEvent.serviceCall 3600 ∈ (chatCompletions envC store0 reqC).1.trace →
        1 ≤ (3600 : ℤ) ∧ (3600 : ℤ) ≤ envC.cfg.maxLeaseSeconds
        ∧ ∀ hd, (chatCompletions envC store0 reqC).1.headers = some hd →
            hd.cost = calculateCost ((3600 : ℤ)).toNat envC.cfg) :=
  have h := lease_clamp envC store0 reqC (some 7) 3600 (by decide)
  ⟨by decide, h.1, h.2.1, h.2.2.1, h.2.2.2⟩
